import Mathlib

/-!
Verification of the transactional commit engine in
`subversion/libsvn_fs_x/transaction.c` against its specification.

The C code is shallowly embedded: APR hashes keyed by path become
association lists, `svn_error_t *` returns become `Except`, file contents
become explicit values threaded through the functions.  Each definition is
a direct translation of the correspondingly named C function; helpers that
live outside `transaction.c` (path utilities, base-36 codecs, error-code
constants) are modelled from the specification and marked as such.
-/

set_option maxRecDepth 10000

/-- `svn_fs_path_change_kind_t`: the change kinds of a change record. -/
inductive ChangeKind where
  | modify
  | add
  | delete
  | replace
  | reset
  | move
  | movereplace
deriving DecidableEq, Repr

/-- `svn_node_kind_t`, reduced to what the commit engine inspects. -/
inductive NodeKind where
  | file
  | dir
  | other
deriving DecidableEq, Repr

/-- `svn_fs_path_change2_t`: the per-path summary record.  Node-revision
ids are abstracted to `Option Nat` (only equality is inspected);
`copyfrom_rev = none` stands for `SVN_INVALID_REVNUM`. -/
structure PathChange where
  node_rev_id : Option Nat
  change_kind : ChangeKind
  text_mod : Bool
  prop_mod : Bool
  node_kind : NodeKind
  copyfrom_rev : Option Nat
  copyfrom_path : Option String
deriving DecidableEq, Repr

/-- `change_t`: a raw change-log record, a path plus its info. -/
structure Change where
  path : String
  info : PathChange
deriving DecidableEq, Repr

/-- Error kinds raised by the commit engine, one constructor per
`svn_error_create` site relevant to the claims (all the fold errors are
`SVN_ERR_FS_CORRUPT` in C, distinguished here by their message). -/
inductive SvnErr where
  | txnOutOfDate
  | corruptMissingNodeRevId
  | corruptNewIdWithoutDelete
  | corruptNonAddOnDelete
  | corruptAddOnExisting
  | ambiguousMove
  | incompleteMove
  | nextIdsCorrupt
deriving DecidableEq, Repr

/-- The folded per-path change map (`apr_hash_t *` keyed by path),
embedded as an association list in insertion order. -/
abbrev ChangeMap := List (String × PathChange)

/-- `apr_hash_get` on a path-keyed hash. -/
def hget : ChangeMap → String → Option PathChange
  | [], _ => none
  | (k, v) :: rest, key => if k = key then some v else hget rest key

/-- `apr_hash_set` with a non-NULL value: overwrite or append. -/
def hset : ChangeMap → String → PathChange → ChangeMap
  | [], key, v => [(key, v)]
  | (k, w) :: rest, key, v =>
      if k = key then (k, v) :: rest else (k, w) :: hset rest key v

/-- `apr_hash_set` with a NULL value: delete the key. -/
def hdel : ChangeMap → String → ChangeMap
  | [], _ => []
  | (k, w) :: rest, key =>
      if k = key then hdel rest key else (k, w) :: hdel rest key

/-- `replace_change`: copy the fields of NEW_CHANGE into OLD_CHANGE (both for
the same path); clear copy-from when the new revision is invalid. -/
def replace_change (old_change new_change : PathChange) : PathChange :=
  { old_change with
    node_kind := new_change.node_kind
    node_rev_id := new_change.node_rev_id
    text_mod := new_change.text_mod
    prop_mod := new_change.prop_mod
    copyfrom_rev :=
      if new_change.copyfrom_rev = none then none else new_change.copyfrom_rev
    copyfrom_path :=
      if new_change.copyfrom_rev = none then none else new_change.copyfrom_path }

/-- `fold_change`: merge one raw change record into the per-path hash. -/
def fold_change (changes : ChangeMap) (change : Change) :
    Except SvnErr ChangeMap :=
  let info := change.info
  match hget changes change.path with
  | some old_change =>
      if info.node_rev_id = none ∧ info.change_kind ≠ ChangeKind.reset then
        .error .corruptMissingNodeRevId
      else if info.node_rev_id ≠ none
          ∧ old_change.node_rev_id ≠ info.node_rev_id
          ∧ old_change.change_kind ≠ ChangeKind.delete then
        .error .corruptNewIdWithoutDelete
      else if old_change.change_kind = ChangeKind.delete
          ∧ ¬(info.change_kind = ChangeKind.replace
              ∨ info.change_kind = ChangeKind.reset
              ∨ info.change_kind = ChangeKind.movereplace
              ∨ info.change_kind = ChangeKind.move
              ∨ info.change_kind = ChangeKind.add) then
        .error .corruptNonAddOnDelete
      else if info.change_kind = ChangeKind.add
          ∧ old_change.change_kind ≠ ChangeKind.delete
          ∧ old_change.change_kind ≠ ChangeKind.reset then
        .error .corruptAddOnExisting
      else
        match info.change_kind with
        | ChangeKind.reset =>
            .ok (hdel changes change.path)
        | ChangeKind.delete =>
            if old_change.change_kind = ChangeKind.add
                ∨ old_change.change_kind = ChangeKind.move then
              .ok (hdel changes change.path)
            else
              .ok (hset changes change.path
                    { old_change with
                      change_kind := ChangeKind.delete
                      text_mod := info.text_mod
                      prop_mod := info.prop_mod
                      copyfrom_rev := none
                      copyfrom_path := none })
        | ChangeKind.add =>
            .ok (hset changes change.path
                  { replace_change old_change info with
                    change_kind := ChangeKind.replace })
        | ChangeKind.replace =>
            .ok (hset changes change.path
                  { replace_change old_change info with
                    change_kind := ChangeKind.replace })
        | ChangeKind.move =>
            .ok (hset changes change.path
                  { replace_change old_change info with
                    change_kind := ChangeKind.movereplace })
        | ChangeKind.movereplace =>
            .ok (hset changes change.path
                  { replace_change old_change info with
                    change_kind := ChangeKind.movereplace })
        | ChangeKind.modify =>
            .ok (hset changes change.path
                  { old_change with
                    text_mod := old_change.text_mod || info.text_mod
                    prop_mod := old_change.prop_mod || info.prop_mod })
  | none =>
      .ok (hset changes change.path info)

/-- The length of a string in characters (spelled out over the character
list so that concrete path arithmetic reduces in the kernel). -/
def str_len (s : String) : Nat := s.data.length

/-- Structural test that the first character list starts the second. -/
def begins_with : List Char → List Char → Bool
  | [], _ => true
  | _ :: _, [] => false
  | a :: as, b :: bs => a == b && begins_with as bs

/-- Whether a path ends in a separator. -/
def ends_with_slash (s : String) : Bool :=
  match s.data.getLast? with
  | some c => c == '/'
  | none => false

/-- Modelled from the spec: `svn_dirent_is_child` (dirent_uri.c is not part
of the sources under review); decides whether CHILD is a strict descendant
of PARENT for canonical paths. -/
def dirent_is_child (parent child : String) : Bool :=
  if parent.data.isEmpty then
    !child.data.isEmpty && !begins_with ['/'] child.data
  else if ends_with_slash parent then
    begins_with parent.data child.data
      && decide (str_len parent < str_len child)
  else
    begins_with (parent.data ++ ['/']) child.data

/-- The minimum length a potential child path must have, from
`process_changes` (path separator plus at least one character, tolerating
trailing separators on the deleted path). -/
def min_child_len (path : String) : Nat :=
  if str_len path = 0 then 1
  else if ends_with_slash path then str_len path + 1
  else str_len path + 2

/-- The inner loop of `process_changes`: after folding a
delete/replace/movereplace of `path`, blow away every folded entry that is
a child of `path`. -/
def drop_children (changed_paths : ChangeMap) (path : String) : ChangeMap :=
  changed_paths.filter
    (fun kv =>
      !(decide (min_child_len path ≤ str_len kv.fst)
        && dirent_is_child path kv.fst))

/-- One iteration of the `process_changes` loop: fold the change, then
drop child entries when the change was a deletion or replacement. -/
def process_one (changed_paths : ChangeMap) (change : Change) :
    Except SvnErr ChangeMap := do
  let folded ← fold_change changed_paths change
  if change.info.change_kind = ChangeKind.delete
      ∨ change.info.change_kind = ChangeKind.replace
      ∨ change.info.change_kind = ChangeKind.movereplace then
    pure (drop_children folded change.path)
  else
    pure folded

/-- `process_changes`: fold the raw change list into the canonical
per-path change map. -/
def process_changes (changes : List Change) : Except SvnErr ChangeMap :=
  changes.foldlM process_one []

/-- The part of `svn_fs_txn_t` that `commit_body` inspects before any
mutation: the base revision of the transaction. -/
structure TxnInfo where
  base_rev : Nat
deriving DecidableEq, Repr

/-- `commit_body`: the commit work-horse, run under the write lock.  The
filesystem state is an arbitrary type `σ` read through `youngest` (the
`svn_fs_x__youngest_rev` call); everything after the out-of-date guard is
the opaque continuation `rest`.  On a stale base the body returns
`txnOutOfDate` and the state untouched. -/
def commit_body {σ : Type} (youngest : σ → Nat)
    (rest : σ → Except SvnErr Nat × σ) (txn : TxnInfo) (fs : σ) :
    Except SvnErr Nat × σ :=
  let old_rev := youngest fs
  if txn.base_rev ≠ old_rev then
    (.error .txnOutOfDate, fs)
  else
    rest fs

/-- Modelled from the spec: base-36 digit character as emitted by
`svn__ui64tobase36` (svn_string.c is not part of the sources under
review); `0`-`9` then `a`-`z`. -/
def b36char (d : Nat) : Char :=
  if d < 10 then Char.ofNat (48 + d) else Char.ofNat (87 + d)

/-- Modelled from the spec: the digit value accepted by
`svn__base36toui64`, `none` for a non-digit. -/
def b36val (c : Char) : Option Nat :=
  if '0' ≤ c ∧ c ≤ '9' then some (c.toNat - 48)
  else if 'a' ≤ c ∧ c ≤ 'z' then some (c.toNat - 87)
  else none

/-- Modelled from the spec: `svn__ui64tobase36`, most significant digit
first; `0` serializes as `"0"`. -/
def to_base36 (n : Nat) : List Char :=
  if h : n < 36 then [b36char n]
  else
    have : n / 36 < n := Nat.div_lt_self (by omega) (by omega)
    to_base36 (n / 36) ++ [b36char (n % 36)]

/-- Modelled from the spec: `svn__base36toui64`, consuming digits while
they last and returning the remainder of the input. -/
def parse_base36 (acc : Nat) : List Char → Nat × List Char
  | [] => (acc, [])
  | c :: rest =>
      match b36val c with
      | some d => parse_base36 (acc * 36 + d) rest
      | none => (acc, c :: rest)

/-- `write_next_ids`: serialize the `next-ids` file,
`<base36-node-id> <base36-copy-id>\n`. -/
def write_next_ids (node_id copy_id : Nat) : List Char :=
  to_base36 node_id ++ ' ' :: (to_base36 copy_id ++ ['\n'])

/-- `read_next_ids`: parse the `next-ids` file; a missing space or
newline is a corruption signal. -/
def read_next_ids (file : List Char) : Except SvnErr (Nat × Nat) :=
  let p1 := parse_base36 0 file
  match p1.2 with
  | ' ' :: rest =>
      let p2 := parse_base36 0 rest
      match p2.2 with
      | '\n' :: _ => .ok (p1.1, p2.1)
      | _ => .error .nextIdsCorrupt
  | _ => .error .nextIdsCorrupt

/-- `get_new_txn_node_id`: read `next-ids`, hand out the current node id,
write the file back with the node id incremented. -/
def get_new_txn_node_id (file : List Char) :
    Except SvnErr (Nat × List Char) := do
  let ids ← read_next_ids file
  .ok (ids.1, write_next_ids (ids.1 + 1) ids.2)

/-- `svn_fs_x__reserve_copy_id`: read `next-ids`, hand out the current
copy id, write the file back with the copy id incremented. -/
def reserve_copy_id (file : List Char) :
    Except SvnErr (Nat × List Char) := do
  let ids ← read_next_ids file
  .ok (ids.2, write_next_ids ids.1 (ids.2 + 1))

/-- Split a character list at separators, accumulating the current
component in reverse. -/
def split_components : List Char → List Char → List (List Char)
  | [], cur => [cur.reverse]
  | c :: rest, cur =>
      if c == '/' then cur.reverse :: split_components rest []
      else split_components rest (c :: cur)

/-- Modelled from the spec: path component split used by
`svn_sort_compare_paths` (sorts.c is not part of the sources under
review); paths compare component-wise so that ancestors precede their
descendants. -/
def path_components (p : String) : List (List Char) :=
  split_components p.data []

/-- Ordering on characters through their code points. -/
def char_cmp (a b : Char) : Ordering :=
  compare a.toNat b.toNat

/-- Lexicographic ordering on character lists. -/
def chars_cmp : List Char → List Char → Ordering
  | [], [] => .eq
  | [], _ :: _ => .lt
  | _ :: _, [] => .gt
  | a :: as, b :: bs =>
      match char_cmp a b with
      | .eq => chars_cmp as bs
      | o => o

/-- Modelled from the spec: lexicographic comparison of component
lists. -/
def compare_components : List (List Char) → List (List Char) → Ordering
  | [], [] => .eq
  | [], _ :: _ => .lt
  | _ :: _, [] => .gt
  | a :: as, b :: bs =>
      match chars_cmp a b with
      | .eq => compare_components as bs
      | o => o

/-- Modelled from the spec: `svn_sort_compare_paths`. -/
def svn_sort_compare_paths (a b : String) : Ordering :=
  compare_components (path_components a) (path_components b)

/-- Modelled from the spec: `svn_sort__bsearch_lower_bound`, the index of
the first element not smaller than `key` (the list length when all are
smaller). -/
def lower_bound (l : List String) (key : String) : Nat :=
  l.findIdx (fun d => svn_sort_compare_paths d key ≠ Ordering.lt)

/-- Modelled from the spec: `svn_dirent_skip_ancestor`, the remainder of
`child` below `parent` when `parent` is an ancestor of (or equal to)
`child`. -/
def dirent_skip_ancestor (parent child : String) : Option String :=
  if parent.data = child.data then some ""
  else if parent.data.isEmpty then
    (if begins_with ['/'] child.data then none else some child)
  else if begins_with (parent.data ++ ['/']) child.data then
    some (String.mk (child.data.drop (parent.data.length + 1)))
  else none

/-- Modelled from the spec: `svn_dirent_is_ancestor`. -/
def dirent_is_ancestor (parent child : String) : Bool :=
  (dirent_skip_ancestor parent child).isSome

/-- Modelled from the spec: `svn_dirent_join` for canonical relpaths. -/
def dirent_join (a b : String) : String :=
  if b.data.isEmpty then a else String.mk (a.data ++ '/' :: b.data)

/-- `check_for_duplicate_move_source`: if CHANGE is a move with a
copy-from path, reject when that source path was seen before, else record
it.  `source_paths` is the hash of sources seen so far. -/
def check_for_duplicate_move_source (source_paths : List String)
    (change : PathChange) : Except SvnErr (List String) :=
  if change.change_kind = ChangeKind.move
      ∨ change.change_kind = ChangeKind.movereplace then
    match change.copyfrom_path with
    | some p =>
        if source_paths.contains p then .error .ambiguousMove
        else .ok (p :: source_paths)
    | none => .ok source_paths
  else .ok source_paths

/-- The loop condition of the duplicate-move-source loop in
`verify_moves`, translated literally: the C source reads
`for (i = 0; moves->nelts; ++i)`, so the guard tests only that the moves
array is non-empty and is independent of the loop counter `i`. -/
def dup_source_loop_guard (moves : List (String × PathChange)) (_i : Nat) :
    Bool :=
  moves.length != 0

/-- The intended semantics of the duplicate-move-source loop (noted in
the comment in the source): run `check_for_duplicate_move_source` once per
move. -/
def check_all_move_sources (source_paths : List String)
    (moves : List PathChange) : Except SvnErr (List String) :=
  moves.foldlM check_for_duplicate_move_source source_paths

/-- The copy-from sources of the move records in a change list, in
order. -/
def move_sources (l : List PathChange) : List String :=
  l.filterMap
    (fun c =>
      if c.change_kind = ChangeKind.move
          ∨ c.change_kind = ChangeKind.movereplace then
        c.copyfrom_path
      else none)

/-- Modelled from the spec: insertion into a sorted list, standing in for
the `qsort` calls in `verify_moves` (the sort itself lives in libc). -/
def insert_sorted {α : Type} (le : α → α → Bool) (x : α) :
    List α → List α
  | [] => [x]
  | y :: ys => if le x y then x :: y :: ys else y :: insert_sorted le x ys

/-- Modelled from the spec: sorting, standing in for `qsort`. -/
def sort_by {α : Type} (le : α → α → Bool) : List α → List α
  | [] => []
  | x :: xs => insert_sorted le x (sort_by le xs)

/-- `le` form of `svn_sort_compare_paths` for sorting path-keyed items. -/
def path_le (a b : String) : Bool :=
  svn_sort_compare_paths a b ≠ Ordering.gt

/-- The final loop of `verify_moves`: the copy-from path of every move must
have a deletion at or above it.  The check consults only the deletion at
the lower-bound index and is skipped entirely when that index falls past
the end of the deletions array. -/
def incomplete_moves_check (deletions : List String)
    (moves : List (String × PathChange)) : Except SvnErr Unit :=
  moves.foldlM
    (fun _ kv =>
      let cf := kv.2.copyfrom_path.getD ""
      match deletions.get? (lower_bound deletions cf) with
      | some closest_deleted_path =>
          if dirent_is_ancestor closest_deleted_path cf then .ok ()
          else .error .incompleteMove
      | none => .ok ())
    ()

/-- `verify_moves`: verify that the moves committed with this transaction
are unique and their copy sources deleted.  `history` carries the change
lists of revisions `base_rev+1 .. old_rev` (empty when the transaction is
based on head).  The duplicate-source loop is embedded with its intended
run-once-per-move semantics; the literal C loop condition is
`dup_source_loop_guard`, settled separately. -/
def verify_moves (history : List (List PathChange))
    (changed_paths : ChangeMap) : Except SvnErr Unit :=
  let moves := changed_paths.filter
    (fun kv =>
      kv.2.copyfrom_path ≠ none
      ∧ (kv.2.change_kind = ChangeKind.move
         ∨ kv.2.change_kind = ChangeKind.movereplace))
  let deletions := changed_paths.filterMap
    (fun kv =>
      if kv.2.change_kind = ChangeKind.delete
          ∨ kv.2.change_kind = ChangeKind.replace
          ∨ kv.2.change_kind = ChangeKind.movereplace then
        some kv.1
      else none)
  if moves.length = 0 then .ok ()
  else
    let moves := sort_by (fun a b => path_le a.1 b.1) moves
    let deletions := deletions.map
      (fun deleted_path =>
        match moves.get? (lower_bound (moves.map Prod.fst) deleted_path) with
        | some closest_move =>
            match dirent_skip_ancestor closest_move.1 deleted_path with
            | some relpath =>
                dirent_join (closest_move.2.copyfrom_path.getD "") relpath
            | none => deleted_path
        | none => deleted_path)
    let deletions := sort_by path_le deletions
    do
      let sp ← check_all_move_sources [] (moves.map Prod.snd)
      let _ ← history.foldlM
        (fun sp changes => check_all_move_sources sp changes) sp
      incomplete_moves_check deletions moves

/-- `SVN_FS__PROP_TXN_CHECK_OOD` marker property name. -/
def PROP_TXN_CHECK_OOD : String := "svn:check-ood"

/-- `SVN_FS__PROP_TXN_CHECK_LOCKS` marker property name. -/
def PROP_TXN_CHECK_LOCKS : String := "svn:check-locks"

/-- `SVN_FS__PROP_TXN_CLIENT_DATE` marker property name. -/
def PROP_TXN_CLIENT_DATE : String := "svn:client-date"

/-- `SVN_PROP_REVISION_DATE`: the `svn:date` revision property. -/
def PROP_REVISION_DATE : String := "svn:date"

/-- A property list (`apr_hash_t *` of name to value). -/
abbrev PropList := List (String × String)

/-- `svn_hash_gets` on a property list. -/
def pget : PropList → String → Option String
  | [], _ => none
  | (k, v) :: rest, key => if k = key then some v else pget rest key

/-- Set a property. -/
def pset : PropList → String → String → PropList
  | [], key, v => [(key, v)]
  | (k, w) :: rest, key, v =>
      if k = key then (k, v) :: rest else (k, w) :: pset rest key v

/-- Remove a property. -/
def pdel : PropList → String → PropList
  | [], _ => []
  | (k, w) :: rest, key =>
      if k = key then pdel rest key else (k, w) :: pdel rest key

/-- `change_txn_props` applied to a list of modifications: a `none` value
removes the property, a `some` value sets it. -/
def apply_prop_mods (props : PropList)
    (mods : List (String × Option String)) : PropList :=
  mods.foldl
    (fun ps nv =>
      match nv.2 with
      | none => pdel ps nv.1
      | some v => pset ps nv.1 v)
    props

/-- `write_final_revprop`: strip the temporary commit-flag properties and
set `svn:date` to `now` unless the `client-date` marker is present with
value `"1"` (`!client_date || strcmp(client_date->data, "1")`).  Returns
the final property list and whether the `props-final` staging path is
used (i.e. whether any modification was made). -/
def write_final_revprop (txnprops : PropList) (now : String) :
    PropList × Bool :=
  let client_date := pget txnprops PROP_TXN_CLIENT_DATE
  let final_mods : List (String × Option String) :=
    (if (pget txnprops PROP_TXN_CHECK_OOD).isSome
     then [(PROP_TXN_CHECK_OOD, none)] else [])
    ++ (if (pget txnprops PROP_TXN_CHECK_LOCKS).isSome
        then [(PROP_TXN_CHECK_LOCKS, none)] else [])
    ++ (if client_date.isSome then [(PROP_TXN_CLIENT_DATE, none)] else [])
    ++ (match client_date with
        | some v => if v = "1" then [] else [(PROP_REVISION_DATE, some now)]
        | none => [(PROP_REVISION_DATE, some now)])
  if final_mods = [] then (txnprops, false)
  else (apply_prop_mods txnprops final_mods, true)

/-- `svn_fs_x__change_set_t`: a tagged integer carrying either a
committed revision or an in-progress transaction id. -/
inductive ChangeSetTag where
  | rev (r : Nat)
  | txn (t : Nat)
deriving DecidableEq, Repr

/-- `svn_fs_x__get_revnum`: the revision of a change set, `-1`
(`SVN_INVALID_REVNUM`) for a transaction. -/
def get_revnum : ChangeSetTag → Int
  | .rev r => (r : Int)
  | .txn _ => -1

/-- `svn_fs_x__is_txn` on a change set. -/
def change_set_is_txn : ChangeSetTag → Bool
  | .rev _ => false
  | .txn _ => true

/-- `representation_t`, with the checksum digests abstracted to `Nat`. -/
structure RepT where
  change_set : ChangeSetTag
  number : Nat
  size : Nat
  expanded_size : Nat
  md5_digest : Nat
  sha1_digest : Nat
  has_sha1 : Bool
deriving DecidableEq, Repr

/-- The slice of `node_revision_t` that `choose_delta_base` inspects:
`revision` is `svn_fs_x__id_rev(id)`. -/
structure NodeRev where
  revision : Int
  predecessor_count : Nat
  data_rep : Option RepT
  prop_rep : Option RepT
deriving DecidableEq, Repr

/-- The two deltification limits read from `fs_x_data_t`. -/
structure DeltaConfig where
  max_deltification_walk : Nat
  max_linear_deltification : Nat
deriving DecidableEq, Repr

/-- `choose_delta_base`: pick the delta base for NODEREV.  `anc k` is the
node-rev reached by walking `k` predecessor hops from the node
(`anc 0` is the node itself; `svn_fs_x__get_node_revision` follows
`predecessor_id` links); `chain_length` is the external
`svn_fs_x__rep_chain_length` probe. -/
def choose_delta_base (cfg : DeltaConfig) (anc : Nat → NodeRev)
    (chain_length : RepT → Nat) (props : Bool) :
    Option RepT :=
  let noderev := anc 0
  if noderev.predecessor_count = 0 then none
  else
    let count0 := noderev.predecessor_count &&& (noderev.predecessor_count - 1)
    let walk := noderev.predecessor_count - count0
    let count :=
      if walk < cfg.max_linear_deltification then
        noderev.predecessor_count - 1
      else count0
    if walk > cfg.max_deltification_walk then none
    else
      let hops := noderev.predecessor_count - count
      let base := anc hops
      let maybe_shared := (List.range hops).any
        (fun k =>
          let b := anc (k + 1)
          match (if props then b.prop_rep else b.data_rep) with
          | some r => decide (b.revision > get_revnum r.change_set)
          | none => false)
      match (if props then base.prop_rep else base.data_rep) with
      | none => none
      | some r =>
          if maybe_shared
              ∧ chain_length r ≥ 2 * cfg.max_linear_deltification + 2 then
            none
          else some r

/-- The delta-base choice as the specification words it (§4.6 of the
spec): no base for a history-less node, no base past the walk ceiling,
otherwise the ancestor at index `p & (p-1)` from the oldest end — or the
immediate predecessor when the walk is shorter than the linear limit —
with the shared-rep chain-length cutoff applied to the candidate. -/
def choose_delta_base_spec (cfg : DeltaConfig) (anc : Nat → NodeRev)
    (chain_length : RepT → Nat) (props : Bool) :
    Option RepT :=
  let p := (anc 0).predecessor_count
  if p = 0 then none
  else
    let walk := p - (p &&& (p - 1))
    if walk > cfg.max_deltification_walk then none
    else
      let idx :=
        if walk < cfg.max_linear_deltification then p - 1 else p &&& (p - 1)
      let base := anc (p - idx)
      let shared_seen := (List.range (p - idx)).any
        (fun k =>
          let b := anc (k + 1)
          match (if props then b.prop_rep else b.data_rep) with
          | some r => decide (b.revision > get_revnum r.change_set)
          | none => false)
      match (if props then base.prop_rep else base.data_rep) with
      | none => none
      | some r =>
          if shared_seen
              ∧ chain_length r ≥ 2 * cfg.max_linear_deltification + 2 then
            none
          else some r

/-- `svn_error_t`, reduced to its numeric code for the propagation-policy
analysis of the rep-sharing lookup. -/
structure ErrId where
  code : Nat
deriving DecidableEq, Repr

/-- Modelled from the spec: `SVN_ERR_FS_CORRUPT` (svn_error_codes.h is
not part of the sources under review).  Only its identity matters. -/
def SVN_ERR_FS_CORRUPT : Nat := 160004

/-- Modelled from the spec: `SVN_ERR_MALFUNC_CATEGORY_START`. -/
def SVN_ERR_MALFUNC_CATEGORY_START : Nat := 235000

/-- Modelled from the spec: `SVN_ERR_CATEGORY_SIZE`. -/
def SVN_ERR_CATEGORY_SIZE : Nat := 5000

/-- Modelled from the spec: `SVN_ERROR_IN_CATEGORY`. -/
def error_in_category (code cat : Nat) : Bool :=
  cat ≤ code && code < cat + SVN_ERR_CATEGORY_SIZE

/-- Lookup in the per-transaction on-disk SHA-1 sidecar map (the files
named by digest under the transaction directory). -/
def digest_lookup : List (Nat × RepT) → Nat → Option RepT
  | [], _ => none
  | (k, v) :: rest, key => if k = key then some v else digest_lookup rest key

/-- The in-memory per-commit hash lookup (`apr_hash_get(reps_hash, ...)`
when a hash was passed in). -/
def hash_lookup (reps_hash : Option (Nat → Option RepT))
    (digest : Nat) : Option RepT :=
  match reps_hash with
  | some h => h digest
  | none => none

/-- `get_shared_rep`: find an existing representation with the SHA-1 of REP.
`reps_hash` is the optional in-memory per-commit hash, `db` the outcome
of the persistent rep-cache lookup (`svn_fs_x__get_rep_reference`),
`sidecar` the per-transaction SHA-1 files.  Returns the shared rep (with
the MD5 of REP copied in) plus the list of errors sent to the warning
callback of the filesystem. -/
def get_shared_rep (allowed : Bool)
    (reps_hash : Option (Nat → Option RepT))
    (db : Except ErrId (Option RepT))
    (sidecar : Nat → Option RepT)
    (rep : RepT) : Except ErrId (Option RepT × List ErrId) :=
  if !allowed then .ok (none, [])
  else
    let from_hash : Option RepT := hash_lookup reps_hash rep.sha1_digest
    let db_step : Except ErrId (Option RepT × List ErrId) :=
      match from_hash with
      | some r => .ok (some r, [])
      | none =>
          match db with
          | .ok r => .ok (r, [])
          | .error e =>
              if e.code = SVN_ERR_FS_CORRUPT
                  || error_in_category e.code SVN_ERR_MALFUNC_CATEGORY_START
              then .error e
              else .ok (none, [e])
    match db_step with
    | .error e => .error e
    | .ok (old1, warnings) =>
        let old2 :=
          match old1 with
          | some r => some r
          | none =>
              if change_set_is_txn rep.change_set then
                sidecar rep.sha1_digest
              else none
        match old2 with
        | some o => .ok (some { o with md5_digest := rep.md5_digest }, warnings)
        | none => .ok (none, warnings)

/-- The continuation of `get_shared_rep` past a persistent lookup that
found nothing: consult the per-transaction SHA-1 sidecar and copy the new
MD5 into a hit. -/
def miss_rep (sidecar : Nat → Option RepT) (rep : RepT) : Option RepT :=
  match
    (if change_set_is_txn rep.change_set then sidecar rep.sha1_digest
     else none)
  with
  | some o => some { o with md5_digest := rep.md5_digest }
  | none => none

/-- Modelled from the spec: `SVN_FS_X__ITEM_INDEX_FIRST_USER` (fs_x.h is
not part of the sources under review); the item-index file starts from a
fixed first-user constant when empty. -/
def ITEM_INDEX_FIRST_USER : Nat := 4

/-- Modelled from the spec: `SVN_FS_X__ITEM_TYPE_FILE_REP` item type tag
for phys-to-log index entries. -/
def ITEM_TYPE_FILE_REP : Nat := 1

/-- `allocate_item_index` over the per-transaction `item-index` file
contents: read the counter (first-user when the file is empty), hand it
out, write back the incremented counter. -/
def allocate_item_index (file : Option Nat) : Nat × Option Nat :=
  let cur := file.getD ITEM_INDEX_FIRST_USER
  (cur, some (cur + 1))

/-- The bytes of the literal end marker `ENDREP\n`. -/
def endrep_bytes : List Nat :=
  "ENDREP\n".toList.map Char.toNat

/-- The per-transaction state touched by the representation writer: the
proto-rev file bytes, the SHA-1 sidecar files, the `item-index` file and
the two proto-index streams. -/
structure RepWriteState where
  proto_file : List Nat
  sha1_files : List (Nat × RepT)
  item_index_file : Option Nat
  l2p_entries : List (Nat × Nat)
  p2l_entries : List (Nat × Nat × Nat)
deriving DecidableEq, Repr

/-- `rep_write_baton`: offsets and checksums accumulated by the write
stream. -/
structure RepWriteBaton where
  rep_offset : Nat
  delta_start : Nat
  rep_size : Nat
  txn_id : Nat
  md5_digest : Nat
  sha1_digest : Nat
deriving DecidableEq, Repr

/-- The candidate representation assembled at the top of
`rep_write_contents_close`: svndiff size measured from the current file
offset, expanded size and digests from the baton, change set tagged with
the transaction. -/
def close_rep0 (st : RepWriteState) (b : RepWriteBaton) : RepT :=
  { change_set := ChangeSetTag.txn b.txn_id
    number := 0
    size := st.proto_file.length - b.delta_start
    expanded_size := b.rep_size
    md5_digest := b.md5_digest
    sha1_digest := b.sha1_digest
    has_sha1 := true }

/-- `rep_write_contents_close`: finish the representation.  On a
rep-sharing hit the proto-rev file is truncated back to the `rep_offset`
of the baton and the old representation adopted; on a miss `ENDREP\n` is
appended, a fresh item index allocated, entries stored in both
proto-indexes and the SHA-1 sidecar written
(`store_sha1_rep_mapping`).  Returns the new state and the
representation the node-revision now references. -/
def rep_write_contents_close (allowed : Bool)
    (db : Except ErrId (Option RepT)) (st : RepWriteState)
    (b : RepWriteBaton) : Except ErrId (RepWriteState × RepT) :=
  let rep0 := close_rep0 st b
  match get_shared_rep allowed none db (digest_lookup st.sha1_files) rep0 with
  | .error e => .error e
  | .ok (old_rep, _warnings) =>
      match old_rep with
      | some o =>
          .ok ({ st with proto_file := st.proto_file.take b.rep_offset }, o)
      | none =>
          let file1 := st.proto_file ++ endrep_bytes
          let alloc := allocate_item_index st.item_index_file
          let rep := { rep0 with number := alloc.1 }
          let entry_size := file1.length - b.rep_offset
          .ok
            ({ proto_file := file1
               sha1_files :=
                 if allowed then (rep.sha1_digest, rep) :: st.sha1_files
                 else st.sha1_files
               item_index_file := alloc.2
               l2p_entries := st.l2p_entries ++ [(b.rep_offset, rep.number)]
               p2l_entries :=
                 st.p2l_entries
                   ++ [(b.rep_offset, entry_size, ITEM_TYPE_FILE_REP)] },
             rep)

/-- The write phase preceding the close (`rep_write_get_baton` plus the
stream writes): record the starting offset, append the representation
header, record the svndiff start, then append the encoded data while the
checksum contexts digest the expanded content. -/
def rep_write_phase (st : RepWriteState) (txn_id : Nat)
    (header encoded : List Nat) (sha1 md5 content_len : Nat) :
    RepWriteBaton × RepWriteState :=
  let rep_offset := st.proto_file.length
  let after_header := st.proto_file ++ header
  let delta_start := after_header.length
  ({ rep_offset := rep_offset
     delta_start := delta_start
     rep_size := content_len
     txn_id := txn_id
     md5_digest := md5
     sha1_digest := sha1 },
   { st with proto_file := after_header ++ encoded })

/-- A full representation write: open the stream, write the content,
close.  `sha1` and `md5` are digests of the expanded content (the
checksum contexts see the bytes before delta encoding, so equal content
gives equal digests even when `header`/`encoded` differ). -/
def write_rep (allowed : Bool) (db : Except ErrId (Option RepT))
    (st : RepWriteState) (txn_id : Nat) (header encoded : List Nat)
    (sha1 md5 content_len : Nat) : Except ErrId (RepWriteState × RepT) :=
  let opened := rep_write_phase st txn_id header encoded sha1 md5 content_len
  rep_write_contents_close allowed db opened.2 opened.1

/-- The S6 scenario: a `move` of `/foo` to `/bar` recorded in the
transaction. -/
def s6_move : PathChange :=
  { node_rev_id := some 1, change_kind := ChangeKind.move,
    text_mod := false, prop_mod := false, node_kind := NodeKind.file,
    copyfrom_rev := some 0, copyfrom_path := some "/foo" }

/-- The S6 folded change map: the move alone, no deletion of `/foo`. -/
def s6_changed_paths : ChangeMap := [("/bar", s6_move)]

/-- A change record introduced by an add in this transaction. -/
def w_old_add : PathChange :=
  { node_rev_id := some 1, change_kind := ChangeKind.add,
    text_mod := false, prop_mod := false, node_kind := NodeKind.file,
    copyfrom_rev := none, copyfrom_path := none }

/-- A folded delete record. -/
def w_old_del : PathChange :=
  { w_old_add with change_kind := ChangeKind.delete }

/-- A folded modify record. -/
def w_old_mod : PathChange :=
  { w_old_add with change_kind := ChangeKind.modify }

/-- A reset record (no node-revision id). -/
def w_reset_info : PathChange :=
  { node_rev_id := none, change_kind := ChangeKind.reset,
    text_mod := false, prop_mod := false, node_kind := NodeKind.file,
    copyfrom_rev := none, copyfrom_path := none }

/-- An incoming delete for the same node-revision id. -/
def w_del_info : PathChange :=
  { node_rev_id := some 1, change_kind := ChangeKind.delete,
    text_mod := true, prop_mod := false, node_kind := NodeKind.file,
    copyfrom_rev := none, copyfrom_path := none }

/-- An incoming add with a fresh id and copy-from information. -/
def w_add_info : PathChange :=
  { node_rev_id := some 2, change_kind := ChangeKind.add,
    text_mod := true, prop_mod := true, node_kind := NodeKind.file,
    copyfrom_rev := some 3, copyfrom_path := some "/src" }

/-- An incoming move with a fresh id and copy-from information. -/
def w_move_info : PathChange :=
  { w_add_info with change_kind := ChangeKind.move }

/-- An incoming modify for the same node-revision id. -/
def w_mod_info : PathChange :=
  { node_rev_id := some 1, change_kind := ChangeKind.modify,
    text_mod := true, prop_mod := false, node_kind := NodeKind.file,
    copyfrom_rev := none, copyfrom_path := none }

/-- An add of `/a/b` recorded after the delete of `/a`. -/
def c5_add_b : PathChange :=
  { node_rev_id := some 2, change_kind := ChangeKind.add,
    text_mod := true, prop_mod := false, node_kind := NodeKind.file,
    copyfrom_rev := none, copyfrom_path := none }

/-- A change stream that deletes `/a` and then adds `/a/b`. -/
def c5_changes : List Change :=
  [⟨"/a", w_del_info⟩, ⟨"/a/b", c5_add_b⟩]

/-- The postcondition asserted by the claim: no folded
delete/replace/movereplace record has a strict descendant left in the
map. -/
def no_descendants_of_deletions (m : ChangeMap) : Bool :=
  m.all
    (fun pc =>
      if pc.2.change_kind = ChangeKind.delete
          ∨ pc.2.change_kind = ChangeKind.replace
          ∨ pc.2.change_kind = ChangeKind.movereplace then
        m.all (fun qd => !dirent_is_child pc.1 qd.1)
      else true)

/-- The S5 scenario add of `/a/b/c`. -/
def s5_add_info : PathChange :=
  { node_rev_id := some 1, change_kind := ChangeKind.add,
    text_mod := true, prop_mod := false, node_kind := NodeKind.file,
    copyfrom_rev := none, copyfrom_path := none }

/-- The S5 scenario delete of `/a`. -/
def s5_del_info : PathChange :=
  { node_rev_id := some 2, change_kind := ChangeKind.delete,
    text_mod := false, prop_mod := false, node_kind := NodeKind.dir,
    copyfrom_rev := none, copyfrom_path := none }

/-- The S5 change stream: add `/a/b/c`, then delete `/a`. -/
def s5_changes : List Change :=
  [⟨"/a/b/c", s5_add_info⟩, ⟨"/a", s5_del_info⟩]

/-- A transaction-tagged representation used as a concrete shared-rep
candidate. -/
def w_rep : RepT :=
  { change_set := ChangeSetTag.txn 0, number := 0, size := 0,
    expanded_size := 0, md5_digest := 5, sha1_digest := 7,
    has_sha1 := true }

/-- An empty rep-writer state (fresh transaction). -/
def wr_st0 : RepWriteState :=
  { proto_file := [], sha1_files := [], item_index_file := none,
    l2p_entries := [], p2l_entries := [] }

/-- The representation produced by the first concrete `write_rep` run
below. -/
def wr_rep1 : RepT :=
  { change_set := ChangeSetTag.txn 3, number := 4, size := 2,
    expanded_size := 6, md5_digest := 5, sha1_digest := 7,
    has_sha1 := true }

/-- The rep-writer state after the first concrete `write_rep` run. -/
def wr_st1 : RepWriteState :=
  { proto_file := [1, 2, 3, 69, 78, 68, 82, 69, 80, 10],
    sha1_files := [(7, wr_rep1)], item_index_file := some 5,
    l2p_entries := [(0, 4)], p2l_entries := [(0, 10, 1)] }

/-- Transaction properties carrying the `client-date` marker with a value
other than `"1"`, plus a user-supplied `svn:date`. -/
def c9_props : PropList :=
  [("svn:client-date", "0"), ("svn:date", "D")]

/-- C1: with the write lock held, `commit_body` first reads the current
youngest revision; when the base revision of the transaction differs it
fails with `txnOutOfDate` before performing any repository mutation — the
filesystem state is returned untouched and the transaction is intact for
retry. -/
theorem commit_body_out_of_date {σ : Type} (youngest : σ → Nat)
    (rest : σ → Except SvnErr Nat × σ) (txn : TxnInfo) (fs : σ)
    (h : txn.base_rev ≠ youngest fs) :
    commit_body youngest rest txn fs = (.error .txnOutOfDate, fs) := by
  simp [commit_body, h]

/-- Witness for `commit_body_out_of_date`: base revision 0 against
youngest revision 1. -/
theorem commit_body_out_of_date_witness :
    (TxnInfo.mk 0).base_rev ≠ id 1
    ∧ commit_body (σ := Nat) id (fun s => (.ok 7, s)) (TxnInfo.mk 0) 1
        = (.error .txnOutOfDate, 1) :=
  ⟨by decide,
   commit_body_out_of_date id (fun s => (.ok 7, s)) (TxnInfo.mk 0) 1
     (by decide)⟩

/-- C2 (claim refuted by the code): a transaction that declares a move of
`/foo` to `/bar` and contains no delete, replace or movereplace at all
passes `verify_moves` with no error — the IncompleteMove check is skipped
whenever the lower-bound index into the deletions array falls past its
end, so the commit does not fail as the claim requires. -/
theorem verify_moves_undeleted_source_admitted :
    s6_move.change_kind = ChangeKind.move
    ∧ s6_move.copyfrom_path = some "/foo"
    ∧ s6_changed_paths.all
        (fun kv =>
          !(kv.2.change_kind == ChangeKind.delete)
          && !(kv.2.change_kind == ChangeKind.replace)
          && !(kv.2.change_kind == ChangeKind.movereplace)) = true
    ∧ verify_moves [] s6_changed_paths = .ok () :=
  ⟨rfl, rfl, rfl, rfl⟩

/-- Auxiliary for C3: the fold over `check_for_duplicate_move_source`
rejects exactly when some source occurs twice or was already seen. -/
theorem check_all_sources_error_iff (l : List PathChange) :
    ∀ sp : List String,
      check_all_move_sources sp l = .error SvnErr.ambiguousMove
        ↔ ¬((move_sources l).Nodup ∧ ∀ s ∈ move_sources l, s ∉ sp) := by
  induction l with
  | nil =>
      intro sp
      simp [check_all_move_sources, move_sources, pure, Except.pure]
  | cons c l ih =>
      intro sp
      by_cases hk : c.change_kind = ChangeKind.move
          ∨ c.change_kind = ChangeKind.movereplace
      · cases hcp : c.copyfrom_path with
        | none =>
            have hstep : check_all_move_sources sp (c :: l)
                = check_all_move_sources sp l := by
              simp [check_all_move_sources, List.foldlM,
                check_for_duplicate_move_source, hk, hcp, bind, Except.bind]
            have hms : move_sources (c :: l) = move_sources l := by
              simp [move_sources, List.filterMap_cons, hk, hcp]
            rw [hstep, hms, ih]
        | some p =>
            have hms : move_sources (c :: l) = p :: move_sources l := by
              simp [move_sources, List.filterMap_cons, hk, hcp]
            by_cases hmem : p ∈ sp
            · have hstep : check_all_move_sources sp (c :: l)
                  = .error SvnErr.ambiguousMove := by
                simp [check_all_move_sources, List.foldlM,
                  check_for_duplicate_move_source, hk, hcp, hmem,
                  bind, Except.bind]
              rw [hstep, hms]
              constructor
              · intro _ hcontra
                exact hcontra.2 p (List.mem_cons_self p _) hmem
              · intro _
                rfl
            · have hstep : check_all_move_sources sp (c :: l)
                  = check_all_move_sources (p :: sp) l := by
                simp [check_all_move_sources, List.foldlM,
                  check_for_duplicate_move_source, hk, hcp, hmem,
                  bind, Except.bind]
              rw [hstep, hms, ih]
              apply not_congr
              simp only [List.nodup_cons, List.mem_cons, forall_eq_or_imp,
                hmem, not_or, not_false_iff, true_and]
              constructor
              · rintro ⟨hnd, hall⟩
                exact ⟨⟨fun hp => (hall p hp).1 rfl, hnd⟩,
                       fun s hs => (hall s hs).2⟩
              · rintro ⟨⟨hpnm, hnd⟩, hall⟩
                exact ⟨hnd, fun s hs => ⟨fun he => hpnm (he ▸ hs),
                                         hall s hs⟩⟩
      · have hstep : check_all_move_sources sp (c :: l)
            = check_all_move_sources sp l := by
          simp [check_all_move_sources, List.foldlM,
            check_for_duplicate_move_source, hk, bind, Except.bind]
        have hms : move_sources (c :: l) = move_sources l := by
          simp [move_sources, List.filterMap_cons, hk]
        rw [hstep, hms, ih]

/-- C3 (the literal loop is a code bug): the guard of the
duplicate-move-source loop — written `for (i = 0; moves->nelts; ++i)` in
the source — never becomes false once the moves array is non-empty, at
any loop counter value, so the loop as written does not terminate.  The
intended run-once-per-move semantics, noted in the source comment,
rejects with AmbiguousMove exactly when two moves share a copy-from
source path. -/
theorem duplicate_move_source_check :
    (∀ (moves : List (String × PathChange)) (i : Nat),
        moves ≠ [] → dup_source_loop_guard moves i = true)
    ∧ (∀ l : List PathChange,
        check_all_move_sources [] l = .error SvnErr.ambiguousMove
          ↔ ¬ (move_sources l).Nodup) := by
  constructor
  · intro moves i h
    simp [dup_source_loop_guard, h]
  · intro l
    rw [check_all_sources_error_iff]
    simp

/-- Witness for `duplicate_move_source_check`: with a single move in the
array the loop guard still holds at iteration one million. -/
theorem duplicate_move_source_check_witness :
    ([("/bar", s6_move)] ≠ ([] : List (String × PathChange)))
    ∧ dup_source_loop_guard [("/bar", s6_move)] 1000000 = true :=
  ⟨by decide, duplicate_move_source_check.1 _ 1000000 (by decide)⟩

/-- C4: the merge rules of `fold_change` for a path that already has a
folded record — a reset removes the record; a delete after an add or move
of this transaction removes the record entirely; any other delete (not
itself following a delete) becomes a plain delete with copy-from cleared;
an add or replace after a delete becomes a replace carrying the new
node-rev id, text_mod, prop_mod and copy-from; a move or movereplace
after a delete becomes a movereplace; a modify ORs the text_mod and
prop_mod bits into the existing record. -/
theorem fold_change_merge_rules
    (m : ChangeMap) (path : String) (old info : PathChange)
    (hold : hget m path = some old) :
    (info.change_kind = ChangeKind.reset → info.node_rev_id = none →
        fold_change m ⟨path, info⟩ = .ok (hdel m path))
    ∧ (info.change_kind = ChangeKind.delete → info.node_rev_id ≠ none →
        old.node_rev_id = info.node_rev_id →
        (old.change_kind = ChangeKind.add
          ∨ old.change_kind = ChangeKind.move) →
        fold_change m ⟨path, info⟩ = .ok (hdel m path))
    ∧ (info.change_kind = ChangeKind.delete → info.node_rev_id ≠ none →
        old.node_rev_id = info.node_rev_id →
        old.change_kind ≠ ChangeKind.add →
        old.change_kind ≠ ChangeKind.move →
        old.change_kind ≠ ChangeKind.delete →
        fold_change m ⟨path, info⟩
          = .ok (hset m path
              { old with
                change_kind := ChangeKind.delete
                text_mod := info.text_mod
                prop_mod := info.prop_mod
                copyfrom_rev := none
                copyfrom_path := none }))
    ∧ ((info.change_kind = ChangeKind.add
          ∨ info.change_kind = ChangeKind.replace) →
        info.node_rev_id ≠ none →
        old.change_kind = ChangeKind.delete →
        fold_change m ⟨path, info⟩
          = .ok (hset m path
              { replace_change old info with
                change_kind := ChangeKind.replace })
          ∧ (replace_change old info).node_rev_id = info.node_rev_id
          ∧ (replace_change old info).text_mod = info.text_mod
          ∧ (replace_change old info).prop_mod = info.prop_mod)
    ∧ ((info.change_kind = ChangeKind.move
          ∨ info.change_kind = ChangeKind.movereplace) →
        info.node_rev_id ≠ none →
        old.change_kind = ChangeKind.delete →
        fold_change m ⟨path, info⟩
          = .ok (hset m path
              { replace_change old info with
                change_kind := ChangeKind.movereplace }))
    ∧ (info.change_kind = ChangeKind.modify → info.node_rev_id ≠ none →
        old.node_rev_id = info.node_rev_id →
        old.change_kind ≠ ChangeKind.delete →
        fold_change m ⟨path, info⟩
          = .ok (hset m path
              { old with
                text_mod := old.text_mod || info.text_mod
                prop_mod := old.prop_mod || info.prop_mod })) := by
  refine ⟨?_, ?_, ?_, ?_, ?_, ?_⟩
  · intro h1 h2
    simp [fold_change, hold, h1, h2]
  · intro h1 h2 h3 h4
    rcases h4 with h4 | h4 <;>
      simp [fold_change, hold, h1, h2, h3, h4]
  · intro h1 h2 h3 h4 h5 h6
    simp [fold_change, hold, h1, h2, h3, h4, h5, h6]
  · intro h1 h2 h3
    rcases h1 with h1 | h1 <;>
      exact ⟨by simp [fold_change, hold, h1, h2, h3],
             by simp [replace_change],
             by simp [replace_change],
             by simp [replace_change]⟩
  · intro h1 h2 h3
    rcases h1 with h1 | h1 <;>
      simp [fold_change, hold, h1, h2, h3]
  · intro h1 h2 h3 h4
    simp [fold_change, hold, h1, h2, h3, h4]

/-- Witness for `fold_change_merge_rules`: each merge rule exercised on a
singleton change map. -/
theorem fold_change_merge_rules_witness :
    fold_change [("/p", w_old_mod)] ⟨"/p", w_reset_info⟩
        = .ok (hdel [("/p", w_old_mod)] "/p")
    ∧ fold_change [("/p", w_old_add)] ⟨"/p", w_del_info⟩
        = .ok (hdel [("/p", w_old_add)] "/p")
    ∧ fold_change [("/p", w_old_mod)] ⟨"/p", w_del_info⟩
        = .ok (hset [("/p", w_old_mod)] "/p"
            { w_old_mod with
              change_kind := ChangeKind.delete
              text_mod := w_del_info.text_mod
              prop_mod := w_del_info.prop_mod
              copyfrom_rev := none
              copyfrom_path := none })
    ∧ fold_change [("/p", w_old_del)] ⟨"/p", w_add_info⟩
        = .ok (hset [("/p", w_old_del)] "/p"
            { replace_change w_old_del w_add_info with
              change_kind := ChangeKind.replace })
    ∧ fold_change [("/p", w_old_del)] ⟨"/p", w_move_info⟩
        = .ok (hset [("/p", w_old_del)] "/p"
            { replace_change w_old_del w_move_info with
              change_kind := ChangeKind.movereplace })
    ∧ fold_change [("/p", w_old_mod)] ⟨"/p", w_mod_info⟩
        = .ok (hset [("/p", w_old_mod)] "/p"
            { w_old_mod with
              text_mod := w_old_mod.text_mod || w_mod_info.text_mod
              prop_mod := w_old_mod.prop_mod || w_mod_info.prop_mod }) :=
  ⟨(fold_change_merge_rules [("/p", w_old_mod)] "/p" w_old_mod w_reset_info
      (by decide)).1 rfl rfl,
   (fold_change_merge_rules [("/p", w_old_add)] "/p" w_old_add w_del_info
      (by decide)).2.1 rfl (by decide) (by decide) (Or.inl rfl),
   (fold_change_merge_rules [("/p", w_old_mod)] "/p" w_old_mod w_del_info
      (by decide)).2.2.1 rfl (by decide) (by decide) (by decide) (by decide)
      (by decide),
   ((fold_change_merge_rules [("/p", w_old_del)] "/p" w_old_del w_add_info
      (by decide)).2.2.2.1 (Or.inl rfl) (by decide) rfl).1,
   (fold_change_merge_rules [("/p", w_old_del)] "/p" w_old_del w_move_info
      (by decide)).2.2.2.2.1 (Or.inl rfl) (by decide) rfl,
   (fold_change_merge_rules [("/p", w_old_mod)] "/p" w_old_mod w_mod_info
      (by decide)).2.2.2.2.2 rfl (by decide) (by decide) (by decide)⟩

/-- Counterexample for C5: the change stream that deletes `/a` and then
adds `/a/b` folds to a map that keeps both records, so the folded map
does contain a strict descendant of a path whose folded kind is delete —
the claim, read as a postcondition of the whole fold, is false. -/
theorem process_changes_descendant_counterexample :
    process_changes c5_changes
        = .ok [("/a", w_del_info), ("/a/b", c5_add_b)]
    ∧ no_descendants_of_deletions
        [("/a", w_del_info), ("/a/b", c5_add_b)] = false :=
  ⟨rfl, rfl⟩

/-- C5 as amended: descendants are dropped at the moment the
delete/replace/movereplace record is folded, so whenever such a change is
the last record of the stream no strict descendant of its path survives
in the canonical map; in particular the S5 stream — add `/a/b/c`, then
delete `/a` — folds to the single delete of `/a` with no entries for
`/a/b` or `/a/b/c`. -/
theorem process_changes_drop_on_folding :
    (∀ (cs : List Change) (c : Change) (m : ChangeMap),
        (c.info.change_kind = ChangeKind.delete
          ∨ c.info.change_kind = ChangeKind.replace
          ∨ c.info.change_kind = ChangeKind.movereplace) →
        process_changes (cs ++ [c]) = .ok m →
        ∀ kv ∈ m,
          ¬(min_child_len c.path ≤ str_len kv.1
            ∧ dirent_is_child c.path kv.1 = true))
    ∧ process_changes s5_changes = .ok [("/a", s5_del_info)] := by
  constructor
  · intro cs c m hk hrun kv hkv
    rw [process_changes, List.foldlM_append] at hrun
    cases hres : cs.foldlM process_one ([] : ChangeMap) with
    | error e =>
        rw [hres] at hrun
        simp [bind, Except.bind] at hrun
    | ok m0 =>
        rw [hres] at hrun
        simp only [List.foldlM, bind, Except.bind] at hrun
        cases hfold : fold_change m0 c with
        | error e =>
            rw [process_one, hfold] at hrun
            simp [bind, Except.bind] at hrun
        | ok folded =>
            rw [process_one, hfold] at hrun
            simp only [bind, Except.bind, if_pos hk, pure,
              Except.pure] at hrun
            have hm : m = drop_children folded c.path := by
              cases hrun
              rfl
            subst hm
            have hmem := List.mem_filter.mp hkv
            intro hcontra
            rw [hcontra.2] at hmem
            simp only [Bool.and_true, Bool.not_eq_true',
              decide_eq_false_iff_not, not_le] at hmem
            omega
  · rfl

/-- Witness for `process_changes_drop_on_folding`: the general clause
applied to the S5 stream and the surviving entry `/a` itself. -/
theorem process_changes_drop_on_folding_witness :
    ¬(min_child_len "/a" ≤ str_len "/a"
      ∧ dirent_is_child "/a" "/a" = true) :=
  process_changes_drop_on_folding.1 [⟨"/a/b/c", s5_add_info⟩]
    ⟨"/a", s5_del_info⟩ [("/a", s5_del_info)] (Or.inl rfl) rfl
    ("/a", s5_del_info) (List.mem_singleton.mpr rfl)

/-- C6: the delta-base chooser, translated from the source, computes
exactly the choice the specification describes — none for a node without
predecessors or past the deltification-walk ceiling, otherwise the
ancestor at index `p &&& (p - 1)` (the immediate predecessor when the
walk is below the linear limit), with the candidate discarded when a
possibly shared rep was seen on the walk and its measured chain length
reaches `2 * max_linear_deltification + 2`. -/
theorem choose_delta_base_matches_spec (cfg : DeltaConfig)
    (anc : Nat → NodeRev) (chain_length : RepT → Nat) (props : Bool) :
    choose_delta_base cfg anc chain_length props
      = choose_delta_base_spec cfg anc chain_length props := by
  unfold choose_delta_base choose_delta_base_spec
  by_cases h0 : (anc 0).predecessor_count = 0
  · simp [h0]
  · simp only [h0, if_false]

/-- Taking back the length of the left part of an append recovers it. -/
theorem take_append_self {α : Type} (l t : List α) :
    (l ++ t).take l.length = l := by
  induction l with
  | nil => simp
  | cons a as ih => simp [List.take, ih]

/-- Auxiliary for C7, the hit branch: a sidecar match truncates the
proto-rev file back to `rep_offset` and adopts the old representation
with the new MD5. -/
theorem rep_write_close_hit (st : RepWriteState) (b : RepWriteBaton)
    (o : RepT) (hdl : digest_lookup st.sha1_files b.sha1_digest = some o) :
    rep_write_contents_close true (.ok none) st b
      = .ok ({ st with proto_file := st.proto_file.take b.rep_offset },
             { o with md5_digest := b.md5_digest }) := by
  simp [rep_write_contents_close, get_shared_rep, hash_lookup, close_rep0,
    change_set_is_txn, hdl]

/-- Auxiliary for C7, the miss branch: `ENDREP\n` is appended, an item
index allocated, both proto-indexes extended and the SHA-1 sidecar
written. -/
theorem rep_write_close_miss (st : RepWriteState) (b : RepWriteBaton)
    (hdl : digest_lookup st.sha1_files b.sha1_digest = none) :
    rep_write_contents_close true (.ok none) st b
      = .ok
          ({ proto_file := st.proto_file ++ endrep_bytes
             sha1_files :=
               (b.sha1_digest,
                 { close_rep0 st b with
                   number := (allocate_item_index st.item_index_file).1 })
                 :: st.sha1_files
             item_index_file := (allocate_item_index st.item_index_file).2
             l2p_entries :=
               st.l2p_entries
                 ++ [(b.rep_offset,
                      (allocate_item_index st.item_index_file).1)]
             p2l_entries :=
               st.p2l_entries
                 ++ [(b.rep_offset,
                      (st.proto_file ++ endrep_bytes).length - b.rep_offset,
                      ITEM_TYPE_FILE_REP)] },
           { close_rep0 st b with
             number := (allocate_item_index st.item_index_file).1 }) := by
  simp [rep_write_contents_close, get_shared_rep, hash_lookup, close_rep0,
    change_set_is_txn, hdl, allocate_item_index]

/-- Auxiliary for C7, deduplication: a second representation written with
the same content digests in the same commit leaves the state exactly as
after the first write — the duplicate bytes are truncated away and the
first representation is adopted. -/
theorem write_rep_dedup (st : RepWriteState) (txn_id : Nat)
    (h1 e1 h2 e2 : List Nat) (sha1 md5 len : Nat)
    (st1 : RepWriteState) (r1 : RepT)
    (hdl : digest_lookup st.sha1_files sha1 = none)
    (hw : write_rep true (.ok none) st txn_id h1 e1 sha1 md5 len
            = .ok (st1, r1)) :
    write_rep true (.ok none) st1 txn_id h2 e2 sha1 md5 len
      = .ok (st1, r1) := by
  unfold write_rep rep_write_phase at hw
  simp only at hw
  rw [rep_write_close_miss _ _ (by simpa using hdl)] at hw
  injection hw with hw
  injection hw with hw1 hw2
  unfold write_rep rep_write_phase
  simp only
  rw [rep_write_close_hit _ _
        ({ close_rep0
             { st with proto_file := st.proto_file ++ h1 ++ e1 }
             { rep_offset := st.proto_file.length
               delta_start := (st.proto_file ++ h1).length
               rep_size := len
               txn_id := txn_id
               md5_digest := md5
               sha1_digest := sha1 } with
           number := (allocate_item_index st.item_index_file).1 })
        (by rw [← hw1]; simp [digest_lookup])]
  rw [← hw1, ← hw2]
  simp [close_rep0]
  have hx := take_append_self
      (st.proto_file ++ (h1 ++ (e1 ++ endrep_bytes))) (h2 ++ e2)
  simpa [List.append_assoc, List.length_append, Nat.add_assoc] using hx

/-- C7: closing the representation write stream truncates the proto-rev
file back to the starting offset and adopts the existing representation
when the rep-sharing lookup finds a SHA-1 match; otherwise it writes the
`ENDREP\n` marker, allocates a fresh item index and appends entries to
both proto-indexes — and consequently two representations with identical
content written in one commit leave exactly one physical copy, the second
write returning the state and representation of the first unchanged. -/
theorem rep_write_close_dedup :
    (∀ (st : RepWriteState) (b : RepWriteBaton) (o : RepT),
        digest_lookup st.sha1_files b.sha1_digest = some o →
        rep_write_contents_close true (.ok none) st b
          = .ok ({ st with proto_file := st.proto_file.take b.rep_offset },
                 { o with md5_digest := b.md5_digest }))
    ∧ (∀ (st : RepWriteState) (b : RepWriteBaton),
        digest_lookup st.sha1_files b.sha1_digest = none →
        rep_write_contents_close true (.ok none) st b
          = .ok
              ({ proto_file := st.proto_file ++ endrep_bytes
                 sha1_files :=
                   (b.sha1_digest,
                     { close_rep0 st b with
                       number :=
                         (allocate_item_index st.item_index_file).1 })
                     :: st.sha1_files
                 item_index_file :=
                   (allocate_item_index st.item_index_file).2
                 l2p_entries :=
                   st.l2p_entries
                     ++ [(b.rep_offset,
                          (allocate_item_index st.item_index_file).1)]
                 p2l_entries :=
                   st.p2l_entries
                     ++ [(b.rep_offset,
                          (st.proto_file ++ endrep_bytes).length
                            - b.rep_offset,
                          ITEM_TYPE_FILE_REP)] },
               { close_rep0 st b with
                 number := (allocate_item_index st.item_index_file).1 }))
    ∧ (∀ (st : RepWriteState) (txn_id : Nat) (h1 e1 h2 e2 : List Nat)
          (sha1 md5 len : Nat) (st1 : RepWriteState) (r1 : RepT),
        digest_lookup st.sha1_files sha1 = none →
        write_rep true (.ok none) st txn_id h1 e1 sha1 md5 len
          = .ok (st1, r1) →
        write_rep true (.ok none) st1 txn_id h2 e2 sha1 md5 len
          = .ok (st1, r1)) :=
  ⟨rep_write_close_hit, rep_write_close_miss, write_rep_dedup⟩

/-- Witness for `rep_write_close_dedup`: two writes of content with equal
digests starting from an empty transaction; the second write changes
nothing. -/
theorem rep_write_close_dedup_witness :
    write_rep true (.ok none) wr_st0 3 [1] [2, 3] 7 5 6
        = .ok (wr_st1, wr_rep1)
    ∧ write_rep true (.ok none) wr_st1 3 [9] [8] 7 5 6
        = .ok (wr_st1, wr_rep1) :=
  ⟨rfl,
   rep_write_close_dedup.2.2 wr_st0 3 [1] [2, 3] [9] [8] 7 5 6 wr_st1
     wr_rep1 rfl rfl⟩

/-- C8: when the in-memory hash misses, an error from the persistent
rep-sharing lookup whose code is neither `SVN_ERR_FS_CORRUPT` nor in the
malfunction category is recorded for the warning callback, cleared, and
the lookup proceeds exactly as if the persistent cache had found nothing;
an error that is Corrupt or a malfunction propagates fatally out of
`get_shared_rep`. -/
theorem get_shared_rep_error_policy
    (reps_hash : Option (Nat → Option RepT)) (e : ErrId)
    (sidecar : Nat → Option RepT) (rep : RepT)
    (hmiss : hash_lookup reps_hash rep.sha1_digest = none) :
    ((e.code ≠ SVN_ERR_FS_CORRUPT
        ∧ error_in_category e.code SVN_ERR_MALFUNC_CATEGORY_START
            = false) →
        get_shared_rep true reps_hash (.error e) sidecar rep
          = .ok (miss_rep sidecar rep, [e])
        ∧ get_shared_rep true reps_hash (.ok none) sidecar rep
          = .ok (miss_rep sidecar rep, []))
    ∧ ((e.code = SVN_ERR_FS_CORRUPT
        ∨ error_in_category e.code SVN_ERR_MALFUNC_CATEGORY_START
            = true) →
        get_shared_rep true reps_hash (.error e) sidecar rep
          = .error e) := by
  constructor
  · rintro ⟨h1, h2⟩
    constructor <;>
      · simp only [get_shared_rep, hmiss, miss_rep, h1, h2,
          Bool.not_true, Bool.false_eq_true, if_false, decide_eq_false h1,
          Bool.false_or, Bool.or_self]
        cases hsc :
            (if change_set_is_txn rep.change_set then
              sidecar rep.sha1_digest
            else none) with
        | none => simp [hsc]
        | some o => simp [hsc]
  · intro h
    rcases h with h | h <;>
      simp [get_shared_rep, hmiss, h]

/-- Witness for `get_shared_rep_error_policy`: error code 1 is warned and
treated as a miss, error code 160004 (Corrupt) propagates. -/
theorem get_shared_rep_error_policy_witness :
    ((ErrId.mk 1).code ≠ SVN_ERR_FS_CORRUPT
      ∧ error_in_category (ErrId.mk 1).code
          SVN_ERR_MALFUNC_CATEGORY_START = false)
    ∧ get_shared_rep true none (.error (ErrId.mk 1)) (fun _ => none) w_rep
        = .ok (miss_rep (fun _ => none) w_rep, [ErrId.mk 1])
    ∧ get_shared_rep true none (.error (ErrId.mk 160004)) (fun _ => none)
        w_rep = .error (ErrId.mk 160004) :=
  ⟨⟨by decide, by decide⟩,
   ((get_shared_rep_error_policy none (ErrId.mk 1) (fun _ => none) w_rep
      rfl).1 ⟨by decide, by decide⟩).1,
   (get_shared_rep_error_policy none (ErrId.mk 160004) (fun _ => none)
      w_rep rfl).2 (Or.inl rfl)⟩

/-- Lookup after setting a property. -/
theorem pget_pset (ps : PropList) (k v key : String) :
    pget (pset ps k v) key = if k = key then some v else pget ps key := by
  induction ps with
  | nil => by_cases h : k = key <;> simp [pset, pget, h]
  | cons hd tl ih =>
      rcases hd with ⟨a, b⟩
      by_cases h1 : a = k
      · subst h1
        by_cases h2 : a = key <;> simp [pset, pget, h2]
      · simp only [pset, if_neg h1]
        by_cases h2 : a = key
        · have hk : ¬ k = key := fun h => h1 (by rw [h2, h])
          simp [pget, h2, hk]
        · simp [pget, h2, ih]

/-- Lookup after removing a property. -/
theorem pget_pdel (ps : PropList) (k key : String) :
    pget (pdel ps k) key = if k = key then none else pget ps key := by
  induction ps with
  | nil => by_cases h : k = key <;> simp [pdel, pget, h]
  | cons hd tl ih =>
      rcases hd with ⟨a, b⟩
      by_cases h1 : a = k
      · subst h1
        by_cases h2 : a = key
        · subst h2
          simp [pdel, pget, ih]
        · simp [pdel, pget, h2, ih]
      · simp only [pdel, if_neg h1]
        by_cases h2 : a = key
        · have hk : ¬ k = key := fun h => h1 (by rw [h2, h])
          simp [pget, h2, hk]
        · simp [pget, h2, ih]

/-- Counterexample for C9: a transaction that carries the `client-date`
marker with value `"0"` — so it does carry the marker property — still
has its `svn:date` overwritten with the current time: the code preserves
the date only when the marker value is exactly `"1"`. -/
theorem write_final_revprop_marker_counterexample :
    (pget c9_props PROP_TXN_CLIENT_DATE).isSome = true
    ∧ pget c9_props PROP_REVISION_DATE = some "D"
    ∧ pget (write_final_revprop c9_props "N").1 PROP_REVISION_DATE
        = some "N"
    ∧ ¬ (some "N" = some ("D" : String)) :=
  ⟨rfl, rfl, rfl, by decide⟩

/-- C9 as amended: during revprop finalization the existing `svn:date`
of the transaction survives exactly when the `client-date` marker is
present with value `"1"`; when the marker is absent or carries any other
value, `svn:date` is set to the current wall-clock time before the final
revprop file is written. -/
theorem write_final_revprop_date_rule (txnprops : PropList) (now : String) :
    (pget txnprops PROP_TXN_CLIENT_DATE = some "1" →
        pget (write_final_revprop txnprops now).1 PROP_REVISION_DATE
          = pget txnprops PROP_REVISION_DATE)
    ∧ (pget txnprops PROP_TXN_CLIENT_DATE ≠ some "1" →
        pget (write_final_revprop txnprops now).1 PROP_REVISION_DATE
          = some now) := by
  have hne1 : PROP_TXN_CHECK_OOD ≠ PROP_REVISION_DATE := by decide
  have hne2 : PROP_TXN_CHECK_LOCKS ≠ PROP_REVISION_DATE := by decide
  have hne3 : PROP_TXN_CLIENT_DATE ≠ PROP_REVISION_DATE := by decide
  constructor
  · intro hcd
    by_cases ho : (pget txnprops PROP_TXN_CHECK_OOD).isSome <;>
      by_cases hl : (pget txnprops PROP_TXN_CHECK_LOCKS).isSome <;>
        simp [write_final_revprop, hcd, ho, hl, apply_prop_mods,
          pget_pdel, pget_pset, hne1, hne2, hne3]
  · intro hcd
    cases hv : pget txnprops PROP_TXN_CLIENT_DATE with
    | none =>
        by_cases ho : (pget txnprops PROP_TXN_CHECK_OOD).isSome <;>
          by_cases hl : (pget txnprops PROP_TXN_CHECK_LOCKS).isSome <;>
            simp [write_final_revprop, hv, ho, hl, apply_prop_mods,
              pget_pdel, pget_pset, hne1, hne2, hne3]
    | some v =>
        have hv1 : ¬ v = "1" := fun h => hcd (h ▸ hv)
        by_cases ho : (pget txnprops PROP_TXN_CHECK_OOD).isSome <;>
          by_cases hl : (pget txnprops PROP_TXN_CHECK_LOCKS).isSome <;>
            simp [write_final_revprop, hv, hv1, ho, hl, apply_prop_mods,
              pget_pdel, pget_pset, hne1, hne2, hne3]

/-- Witness for `write_final_revprop_date_rule`: a marker value of `"1"`
preserves the supplied date, the `c9_props` transaction gets the current
time. -/
theorem write_final_revprop_date_rule_witness :
    (pget [(PROP_TXN_CLIENT_DATE, "1"), (PROP_REVISION_DATE, "D")]
        PROP_TXN_CLIENT_DATE = some "1"
      ∧ pget (write_final_revprop
            [(PROP_TXN_CLIENT_DATE, "1"), (PROP_REVISION_DATE, "D")]
            "N").1 PROP_REVISION_DATE
          = pget [(PROP_TXN_CLIENT_DATE, "1"), (PROP_REVISION_DATE, "D")]
              PROP_REVISION_DATE)
    ∧ (pget c9_props PROP_TXN_CLIENT_DATE ≠ some "1"
      ∧ pget (write_final_revprop c9_props "N").1 PROP_REVISION_DATE
          = some "N") :=
  ⟨⟨rfl, (write_final_revprop_date_rule _ "N").1 rfl⟩,
   ⟨by decide, (write_final_revprop_date_rule c9_props "N").2 (by decide)⟩⟩

/-- Every base-36 digit round-trips through its character. -/
theorem b36val_b36char : ∀ d < 36, b36val (b36char d) = some d := by
  decide

/-- The parser stops at a non-digit. -/
theorem parse_base36_stop (acc : Nat) (c : Char) (r : List Char)
    (h : b36val c = none) : parse_base36 acc (c :: r) = (acc, c :: r) := by
  simp [parse_base36, h]

/-- Parsing the serialization of `n` accumulates exactly `n`. -/
theorem parse_to_base36 (n : Nat) : ∀ (acc : Nat) (r : List Char),
    parse_base36 acc (to_base36 n ++ r)
      = parse_base36 (acc * 36 ^ (to_base36 n).length + n) r := by
  induction n using Nat.strong_induction_on with
  | _ n ih =>
    intro acc r
    by_cases h : n < 36
    · rw [to_base36]
      simp only [h, dite_true, List.singleton_append,
        List.length_singleton]
      simp [parse_base36, b36val_b36char n h, pow_one]
    · rw [to_base36]
      simp only [h, dite_false]
      rw [List.append_assoc, List.singleton_append,
          ih (n / 36) (Nat.div_lt_self (by omega) (by omega)) acc _]
      have hm : b36val (b36char (n % 36)) = some (n % 36) :=
        b36val_b36char _ (Nat.mod_lt _ (by omega))
      simp only [parse_base36, hm]
      congr 1
      simp only [List.length_append, List.length_singleton]
      have hdm : 36 * (n / 36) + n % 36 = n := Nat.div_add_mod n 36
      ring_nf
      omega

/-- The `next-ids` file round-trips: reading what `write_next_ids` wrote
yields the same pair. -/
theorem read_write_next_ids (n c : Nat) :
    read_next_ids (write_next_ids n c) = .ok (n, c) := by
  unfold read_next_ids write_next_ids
  rw [parse_to_base36]
  rw [parse_base36_stop _ _ _ (by decide)]
  simp only [zero_mul, zero_add]
  rw [parse_to_base36]
  rw [parse_base36_stop _ _ _ (by decide)]
  simp

/-- C10: reserving a node id returns the current node-id counter of the
`next-ids` file and rewrites the file with only the node id incremented,
the copy id unchanged; symmetrically, reserving a copy id returns the
current copy id and increments only the copy id, the node id
unchanged. -/
theorem next_ids_frame_effect (n c : Nat) :
    get_new_txn_node_id (write_next_ids n c)
        = .ok (n, write_next_ids (n + 1) c)
    ∧ reserve_copy_id (write_next_ids n c)
        = .ok (c, write_next_ids n (c + 1)) := by
  constructor <;>
    simp [get_new_txn_node_id, reserve_copy_id, read_write_next_ids,
      Except.bind, bind]
